import Mathlib

/-!
# claude-code-viewer: the browser controller `static/js/app.js`

A shallow embedding of the `ClaudeViewer` class.  Every definition below is
the translation of one method (or of one platform operation that a method
calls), with the DOM, the timer table, the local storage and the network
outcome passed explicitly as state.

Conventions
* JavaScript strings are `String`; `length` is counted in UTF-16 code units.
* `null` / `undefined` are `Option.none`.
* A thrown exception is the `some message` component of an effect result.
* Time is a natural number of milliseconds.
-/

namespace ClaudeViewer

/-! ## Strings -/

/-- The code points that `String.prototype.trim` strips: ECMAScript WhiteSpace
and LineTerminator. -/
def isTrimChar (c : Char) : Bool :=
  let n := c.toNat
  n == 0x09 || n == 0x0A || n == 0x0B || n == 0x0C || n == 0x0D || n == 0x20 ||
  n == 0xA0 || n == 0x1680 || (0x2000 ≤ n && n ≤ 0x200A) || n == 0x2028 ||
  n == 0x2029 || n == 0x202F || n == 0x205F || n == 0x3000 || n == 0xFEFF

/-- The characters of `s.trim()`: white space removed from both ends. -/
def trimChars (l : List Char) : List Char :=
  ((l.dropWhile isTrimChar).reverse.dropWhile isTrimChar).reverse

/-- `s.trim()`. -/
def jsTrim (s : String) : String := String.mk (trimChars s.data)

/-- `s.length`: the number of UTF-16 code units of `s`. -/
def jsLength (s : String) : Nat :=
  (s.data.map fun c => if c.toNat < 0x10000 then 1 else 2).sum

/-! ## URL and URLSearchParams -/

/-- The name-value list of a `FormData` or `URLSearchParams` object. -/
abbrev Entries := List (String × String)

/-- A parsed URL record: `base` is everything before the query (scheme,
authority and path), `query` and `fragment` are absent when null. -/
structure URL where
  base : String
  query : Option String
  fragment : Option String
  deriving DecidableEq, Repr

/-- The URL serializer, `url.toString()` and `url.href`. -/
def URL.toString (u : URL) : String :=
  u.base ++ (match u.query with | none => "" | some q => "?" ++ q) ++
    (match u.fragment with | none => "" | some f => "#" ++ f)

/-- The setter `url.search = value`: the empty string clears the query, and a
single leading `?` of a non-empty value is dropped.  The percent-encoding that
the URL parser applies to a query is not repeated here: it leaves the output
of the urlencoded serializer, the only value the script assigns, unchanged. -/
def URL.setSearch (u : URL) (value : String) : URL :=
  if value = "" then { u with query := none }
  else
    match value.data with
    | '?' :: rest => { u with query := some (String.mk rest) }
    | _ => { u with query := some value }

/-- Upper-case hexadecimal digit. -/
def hexDigit (n : Nat) : Char :=
  if n < 10 then Char.ofNat (48 + n) else Char.ofNat (55 + n)

/-- UTF-8 encoding of one code point, as a list of byte values. -/
def utf8Bytes (c : Char) : List Nat :=
  let n := c.toNat
  if n < 0x80 then [n]
  else if n < 0x800 then [0xC0 + n / 64, 0x80 + n % 64]
  else if n < 0x10000 then [0xE0 + n / 4096, 0x80 + n / 64 % 64, 0x80 + n % 64]
  else [0xF0 + n / 262144, 0x80 + n / 4096 % 64, 0x80 + n / 64 % 64, 0x80 + n % 64]

/-- One byte under the application/x-www-form-urlencoded byte serializer:
space becomes `+`, ASCII alphanumerics and `*-._` stay, the rest is
percent-encoded. -/
def urlencodedByte (b : Nat) : List Char :=
  if b = 0x20 then ['+']
  else if (0x30 ≤ b ∧ b ≤ 0x39) ∨ (0x41 ≤ b ∧ b ≤ 0x5A) ∨ (0x61 ≤ b ∧ b ≤ 0x7A) ∨
      b = 0x2A ∨ b = 0x2D ∨ b = 0x2E ∨ b = 0x5F then [Char.ofNat b]
  else ['%', hexDigit (b / 16), hexDigit (b % 16)]

/-- A name or a value under the urlencoded serializer. -/
def urlencodedString (s : String) : List Char :=
  (s.data.map fun c => ((utf8Bytes c).map urlencodedByte).flatten).flatten

/-- One `name=value` pair of the serialization. -/
def serializePair (e : String × String) : List Char :=
  urlencodedString e.1 ++ '=' :: urlencodedString e.2

/-- `params.toString()`: the urlencoded serialization of a list, pairs
joined by `&`. -/
def URLSearchParams.toString (l : Entries) : String :=
  String.mk (List.intercalate ['&'] (l.map serializePair))

/-- `params.get(name)`: the value of the first pair named `name`, else null. -/
def URLSearchParams.get (l : Entries) (name : String) : Option String :=
  (l.find? fun e => e.1 == name).map fun e => e.2

/-- `params.set(name, value)`: when a pair named `name` exists, the first one
gets the value and the others are removed; else the pair is appended. -/
def URLSearchParams.set : Entries → String → String → Entries
  | [], name, value => [(name, value)]
  | e :: rest, name, value =>
    if e.1 = name then (e.1, value) :: rest.filter fun x => x.1 ≠ name
    else e :: URLSearchParams.set rest name value

/-- The update steps run after a mutation of `url.searchParams`: the URL query
becomes the serialization of the list, or null when that is empty. -/
def URL.updateFromParams (u : URL) (l : Entries) : URL :=
  let serializedQuery := URLSearchParams.toString l
  { u with query := if serializedQuery = "" then none else some serializedQuery }

/-! ## Search form: `handleSearch`, `autoSubmitFilters`, `clearFilters` -/

/-- Body of the `for ... of formData.entries()` loop of `handleSearch`:
`if (value.trim()) params.append(key, value.trim())`. -/
def handleSearchStep (params : Entries) (e : String × String) : Entries :=
  if jsTrim e.2 ≠ "" then params ++ [(e.1, jsTrim e.2)] else params

/-- The `params` object that `handleSearch` has built when its loop ends. -/
def handleSearchParams (formData : Entries) : Entries :=
  formData.foldl handleSearchStep []

/-- `handleSearch(e)`: the URL assigned to `window.location.href`, for the
current location `loc` and the entries of the submitted form. -/
def handleSearch (loc : URL) (formData : Entries) : String :=
  let params := handleSearchParams formData
  let url := loc.setSearch (URLSearchParams.toString params)
  url.toString

/-- `clearFilters()` with the form present: the URL navigated to. -/
def clearFilters (loc : URL) : String :=
  (loc.setSearch "").toString

/-! ## Pagination: `setupPagination`, `loadPage` -/

/-- `loadPage(pageNumber)`: the URL assigned to `window.location.href`.
`locParams` is the list held by `url.searchParams` for
`url = new URL(window.location)`, that is the platform's parse of the current
query string; a null `pageNumber` is converted to the string `null`. -/
def loadPage (loc : URL) (locParams : Entries) (pageNumber : Option String) : String :=
  let params := URLSearchParams.set locParams "page" (pageNumber.getD "null")
  (loc.updateFromParams params).toString

/-- The click listener that `setupPagination` installs on a pagination link:
`linkParams` is the list of `new URL(link.href).searchParams`. -/
def paginationClick (loc : URL) (locParams linkParams : Entries) : String :=
  loadPage loc locParams (URLSearchParams.get linkParams "page")

/-! ## Theme: `toggleTheme` and the load handler -/

/-- `classList.contains(token)`. -/
def classListContains (cl : List String) (token : String) : Bool :=
  cl.contains token

/-- `classList.add(token)`: appended unless already present. -/
def classListAdd (cl : List String) (token : String) : List String :=
  if cl.contains token then cl else cl ++ [token]

/-- `classList.remove(token)`. -/
def classListRemove (cl : List String) (token : String) : List String :=
  cl.filter fun t => t ≠ token

/-- What the theme code reads and writes: the class list of `document.body`
and the local-storage item stored under the key `theme`. -/
structure ThemeState where
  bodyClasses : List String
  storedTheme : Option String
  deriving DecidableEq, Repr

/-- The dark-theme class is on the body. -/
def ThemeState.isDark (s : ThemeState) : Bool :=
  classListContains s.bodyClasses "dark-theme"

/-- `toggleTheme()`. -/
def toggleTheme (s : ThemeState) : ThemeState :=
  let isDark := classListContains s.bodyClasses "dark-theme"
  if isDark then
    { bodyClasses := classListRemove s.bodyClasses "dark-theme", storedTheme := some "light" }
  else
    { bodyClasses := classListAdd s.bodyClasses "dark-theme", storedTheme := some "dark" }

/-- The part of the DOMContentLoaded handler that loads the saved theme. -/
def loadSavedTheme (s : ThemeState) : ThemeState :=
  if s.storedTheme = some "dark" then
    { s with bodyClasses := classListAdd s.bodyClasses "dark-theme" }
  else s

/-- The method of a form, as far as the navigation target depends on it. -/
inductive FormMethod where
  | get
  | post
  deriving DecidableEq, Repr

/-- The search form as the browser sees it: the parsed `action` URL (the
document URL when the attribute is absent), the method, and the entry list
(the same list that `new FormData(form)` holds). -/
structure Form where
  action : URL
  method : FormMethod
  entries : Entries
  deriving DecidableEq, Repr

/-- Line-break normalization applied to names and values when an entry list is
converted to name-value pairs: every lone CR or LF becomes CR LF. -/
def normalizeNewlines : List Char → List Char
  | [] => []
  | '\r' :: '\n' :: rest => '\r' :: '\n' :: normalizeNewlines rest
  | '\r' :: rest => '\r' :: '\n' :: normalizeNewlines rest
  | '\n' :: rest => '\r' :: '\n' :: normalizeNewlines rest
  | c :: rest => c :: normalizeNewlines rest

/-- Entry list to name-value pairs. -/
def toNameValuePairs (entries : Entries) : Entries :=
  entries.map fun e => (String.mk (normalizeNewlines e.1.data), String.mk (normalizeNewlines e.2.data))

/-- `form.submit()`: the URL the browser navigates to.  The call starts the
native submission and dispatches no submit event, so no submit listener runs.
For GET the query of the action URL is replaced by the serialization of all
pairs; for POST the pairs travel in the request body and the target is the
action URL. -/
def formSubmit (form : Form) : String :=
  match form.method with
  | .get =>
    { form.action with
      query := some (URLSearchParams.toString (toNameValuePairs form.entries)) }.toString
  | .post => form.action.toString

/-- `autoSubmitFilters()`: `form` is the element with id `search-form`, none
when the page has no such element; the result is the navigation started, if
any. -/
def autoSubmitFilters (form : Option Form) : Option String :=
  match form with
  | some f => some (formSubmit f)
  | none => none

/-! ## Debounced search: `setupSearch` -/

/-- The state the debounce listener runs in.  `timers` is the table of pending
timeouts (id and due time), `debounceTimer` the closure variable, `fired` the
times at which a scheduled callback ran and `submitted` the times at which such
a callback reached `form.submit()`. -/
structure SearchState where
  now : Nat
  value : String
  hasForm : Bool
  timers : List (Nat × Nat)
  nextId : Nat
  debounceTimer : Option Nat
  fired : List Nat
  submitted : List Nat
  deriving DecidableEq, Repr

/-- The state right after `setupSearch()` has run at time 0. -/
def SearchState.initial (value : String) (hasForm : Bool) : SearchState :=
  { now := 0, value := value, hasForm := hasForm, timers := [], nextId := 1,
    debounceTimer := none, fired := [], submitted := [] }

/-- `clearTimeout(id)`: removes the timeout with that id; an undefined or
stale id changes nothing. -/
def clearTimeout (timers : List (Nat × Nat)) (id : Option Nat) : List (Nat × Nat) :=
  match id with
  | none => timers
  | some i => timers.filter fun x => x.1 ≠ i

/-- The `input` listener, run at time `t` after the keystroke has changed the
value to `v`: `clearTimeout(debounceTimer); debounceTimer = setTimeout(.., 500)`. -/
def onInput (s : SearchState) (t : Nat) (v : String) : SearchState :=
  { s with
    now := t
    value := v
    timers := clearTimeout s.timers s.debounceTimer ++ [(s.nextId, t + 500)]
    nextId := s.nextId + 1
    debounceTimer := some s.nextId }

/-- The test of the scheduled callback:
`e.target.value.length > 2 || e.target.value.length === 0`. -/
def shouldAutoSubmit (value : String) : Bool :=
  jsLength value > 2 || jsLength value == 0

/-- The scheduled callback, run at time `t` for the timeout `id`. -/
def onTimeout (s : SearchState) (id t : Nat) : SearchState :=
  { s with
    now := t
    timers := s.timers.filter fun x => x.1 ≠ id
    fired := s.fired ++ [t]
    submitted :=
      if shouldAutoSubmit s.value && s.hasForm then s.submitted ++ [t] else s.submitted }

/-- The pending timeout that is due first (the earliest scheduled among equals). -/
def earliest : List (Nat × Nat) → Option (Nat × Nat)
  | [] => none
  | x :: rest =>
    match earliest rest with
    | none => some x
    | some y => if x.2 ≤ y.2 then some x else some y

/-- Events of the search box: a keystroke at an absolute time with the new
value, or the expiry of the timeout that is due first. -/
inductive SearchEvent where
  | input (t : Nat) (value : String)
  | expire
  deriving DecidableEq, Repr

/-- One step of the event loop.  A keystroke at time `t` is possible when time
does not run backwards and no pending timeout was due before `t`; an expiry
runs the earliest pending timeout at its due time. -/
def step (s : SearchState) : SearchEvent → Option SearchState
  | .input t v =>
    if s.now ≤ t ∧ s.timers.all (fun x => t ≤ x.2) then some (onInput s t v) else none
  | .expire =>
    match earliest s.timers with
    | none => none
    | some x => some (onTimeout s x.1 (max s.now x.2))

/-- A sequence of events from a state; none when some event is not possible. -/
def run (s : SearchState) : List SearchEvent → Option SearchState
  | [] => some s
  | e :: rest =>
    match step s e with
    | none => none
    | some s1 => run s1 rest

/-- The keystrokes of an event sequence, in order. -/
def keystrokes : List SearchEvent → List (Nat × String)
  | [] => []
  | .input t v :: rest => (t, v) :: keystrokes rest
  | .expire :: rest => keystrokes rest

/-- Every keystroke of the list follows the previous one (the first follows
time `last`) by less than 500 ms. -/
def spaced (last : Nat) : List (Nat × String) → Bool
  | [] => true
  | k :: rest => decide (last ≤ k.1) && decide (k.1 < last + 500) && spaced k.1 rest

/-- A burst: keystrokes each less than 500 ms after the previous one. -/
def isBurst : List (Nat × String) → Bool
  | [] => true
  | k :: rest => spaced k.1 rest

/-- The events of a burst followed by one expiry. -/
def burstThenExpiry (burst : List (Nat × String)) : List SearchEvent :=
  burst.map (fun k => SearchEvent.input k.1 k.2) ++ [SearchEvent.expire]

/-! ## Copy buttons: `setupCodeCopyButtons`, `copyCode`, `showCopyFeedback` -/

/-- A DOM node: a text node, or an element with its upper-case tag name, its
class list and its children.  Inline styles are left out: they do not take
part in `textContent` or in selector matching. -/
inductive Node where
  | text (data : String)
  | element (tagName : String) (classes : List String) (children : List Node)
  deriving Repr

mutual
/-- `node.textContent`: the text of all text descendants in tree order. -/
def Node.textContent : Node → String
  | .text d => d
  | .element _ _ ch => Node.textContentOfList ch
/-- Concatenated `textContent` of a list of sibling nodes. -/
def Node.textContentOfList : List Node → String
  | [] => ""
  | n :: rest => n.textContent ++ Node.textContentOfList rest
end

mutual
/-- First element in tree order, the node itself included, that satisfies `p`
(a test on tag name and class list). -/
def Node.firstMatch (p : String → List String → Bool) : Node → Option Node
  | .text _ => none
  | .element t c ch =>
    if p t c then some (.element t c ch) else Node.firstMatchInList p ch
/-- First match among a list of siblings and their descendants. -/
def Node.firstMatchInList (p : String → List String → Bool) : List Node → Option Node
  | [] => none
  | n :: rest =>
    match n.firstMatch p with
    | some r => some r
    | none => Node.firstMatchInList p rest
end

/-- `node.querySelector(sel)` for a simple selector given as a test `p`: the
first descendant element that matches. -/
def Node.querySelector (p : String → List String → Bool) : Node → Option Node
  | .text _ => none
  | .element _ _ ch => Node.firstMatchInList p ch

/-- The selector `.copy-btn`. -/
def selCopyBtn (_tag : String) (classes : List String) : Bool :=
  classes.contains "copy-btn"

/-- The selector `pre`. -/
def selPre (tag : String) (_classes : List String) : Bool :=
  tag == "PRE"

/-- The button that `setupCodeCopyButtons` creates: class `copy-btn`, text
content `Copy`. -/
def copyButton : Node :=
  .element "BUTTON" ["copy-btn"] [.text "Copy"]

mutual
/-- `setupCodeCopyButtons()` on the subtree of a node.  The elements matching
`.code-block, .message-content pre` are visited in document order; one that
has no `.copy-btn` descendant gets the button appended as its last child.
`inMessage` tells whether an ancestor carries the class `message-content`.
An element is visited before its descendants, so the test for an existing
button sees the children as they were before any of them was decorated. -/
def setupCodeCopyButtons (inMessage : Bool) : Node → Node
  | .text d => .text d
  | .element t c ch =>
    let isBlock := c.contains "code-block" || (t == "PRE" && inMessage)
    let hasButton := (Node.firstMatchInList selCopyBtn ch).isSome
    let ch1 := setupCodeCopyButtonsList (inMessage || c.contains "message-content") ch
    if isBlock && !hasButton then .element t c (ch1 ++ [copyButton]) else .element t c ch1
/-- The same over a list of siblings. -/
def setupCodeCopyButtonsList (inMessage : Bool) : List Node → List Node
  | [] => []
  | n :: rest => setupCodeCopyButtons inMessage n :: setupCodeCopyButtonsList inMessage rest
end

/-- `copyCode(codeBlock)`: the string `code` that is copied, for the element
`codeBlock` as it is at click time.  `navigator.clipboard.writeText` gets it
as it is; the textarea of the fallback path holds it with every line break
written as LF. -/
def copyCode (codeBlock : Node) : String :=
  match codeBlock with
  | .text d => d
  | .element t c ch =>
    if t == "PRE" then (Node.element t c ch).textContent
    else
      match (Node.element t c ch).querySelector selPre with
      | some preElement => preElement.textContent
      | none => (Node.element t c ch).textContent

/-- What `showCopyFeedback` changes on the copy button. -/
structure CopyButton where
  textContent : String
  background : String
  deriving DecidableEq, Repr

/-- The copy button and the pending feedback timeouts: each holds its due time
and the `originalText` captured by its closure. -/
structure FeedbackState where
  button : CopyButton
  timers : List (Nat × String)
  deriving DecidableEq, Repr

/-- The button as `setupCodeCopyButtons` leaves it. -/
def FeedbackState.initial : FeedbackState :=
  { button := { textContent := "Copy", background := "" }, timers := [] }

/-- `showCopyFeedback(codeBlock)` run at time `now`. -/
def showCopyFeedback (s : FeedbackState) (now : Nat) : FeedbackState :=
  let originalText := s.button.textContent
  { button := { textContent := "Copied!", background := "rgba(16, 185, 129, 0.2)" }
    timers := s.timers ++ [(now + 2000, originalText)] }

/-- The callback of a feedback timeout. -/
def feedbackTimeout (_b : CopyButton) (originalText : String) : CopyButton :=
  { textContent := originalText, background := "" }

/-- Time advances to `t`: the timeouts due by then run, in scheduling order
(all have the same delay, so this is the order of their due times). -/
def fireDue (s : FeedbackState) (t : Nat) : FeedbackState :=
  { button := (s.timers.filter fun x => x.1 ≤ t).foldl (fun b x => feedbackTimeout b x.2) s.button
    timers := s.timers.filter fun x => ¬ x.1 ≤ t }

/-- All pending timeouts run. -/
def fireAll (s : FeedbackState) : FeedbackState :=
  { button := s.timers.foldl (fun b x => feedbackTimeout b x.2) s.button, timers := [] }

/-- Successful copies at the given (non-decreasing) times, each preceded by
the timeouts due by then. -/
def copiesAt (s : FeedbackState) : List Nat → FeedbackState
  | [] => s
  | t :: rest => copiesAt (showCopyFeedback (fireDue s t) t) rest

/-- The button after the copies and after every feedback timeout has fired. -/
def afterCopies (times : List Nat) : CopyButton :=
  (fireAll (copiesAt FeedbackState.initial times)).button

/-! ## Oversized messages: `checkOversizedMessages` and `cleanupMessages` -/

/-- Messages of the exceptions the script engine itself raises: `typeError p`
is the message of the TypeError for an access to property `p` of null or
undefined. -/
structure Engine where
  typeError : String → String

/-- How `fetch(..)` followed by `response.json()` settles.  `ok` is
`response.ok`.  A body that parses to a JSON value other than null is `json`:
a field that is absent (also because the value is not an object) reads as
undefined. -/
inductive FetchOutcome (β : Type) where
  | rejected (message : String)
  | badJson (ok : Bool) (message : String)
  | nullBody (ok : Bool)
  | json (ok : Bool) (body : β)
  deriving Repr

/-- One record of `oversized_messages`; `size_mb` is kept as the text the
template interpolates. -/
structure OversizedMessage where
  line_number : Nat
  size_mb : String
  role : String
  preview : String
  deriving DecidableEq, Repr

/-- The decoded body of the check endpoint, fields typed as in its contract. -/
structure OversizedBody where
  count : Option Int
  oversized_messages : Option (List OversizedMessage)
  deriving DecidableEq, Repr

/-- The decoded body of the cleanup endpoint, fields typed as in its contract. -/
structure CleanupBody where
  success : Option Bool
  detail : Option String
  deriving DecidableEq, Repr

/-- The check button. -/
structure Button where
  innerHTML : String
  disabled : Bool
  deriving DecidableEq, Repr

/-- What `details.innerHTML` holds; each template literal is represented by a
constructor that carries the values it interpolates. -/
inductive Details where
  | initial
  | table (messages : List OversizedMessage)
  | noOversized
  | error (errorMessage : String)
  deriving DecidableEq, Repr

/-- The part of the page that the check touches: the button, the class list of
the element `oversized-alert` and the content of `oversized-details` (none when
the element is missing), and the delays of the scheduled auto-hide timeouts. -/
structure World where
  btn : Button
  alert : Option (List String)
  details : Option Details
  hides : List Nat
  deriving DecidableEq, Repr

/-- An effect on the page that may throw: the new state and the message of the
exception, if one was thrown. -/
abbrev Effect := World → World × Option String

/-- `try { body } catch (error) { handler(error.message) } finally { fin }`. -/
def tryCatchFinally (body : Effect) (handler : String → Effect) (fin : World → World) : Effect :=
  fun w =>
    let r := match body w with
      | (w1, none) => (w1, none)
      | (w1, some message) => handler message w1
    (fin r.1, r.2)

/-- `showOversizedMessages(messages)`. -/
def showOversizedMessages (eng : Engine) (messages : Option (List OversizedMessage)) : Effect :=
  fun w =>
    match messages with
    | none => (w, some (eng.typeError "length"))
    | some msgs =>
      match w.details with
      | none => (w, some (eng.typeError "innerHTML"))
      | some _ =>
        let w1 := { w with details := some (Details.table msgs) }
        match w1.alert with
        | none => (w1, some (eng.typeError "classList"))
        | some cl => ({ w1 with alert := some (classListRemove cl "d-none") }, none)

/-- `showNoOversizedMessages()`. -/
def showNoOversizedMessages (eng : Engine) : Effect :=
  fun w =>
    match w.alert with
    | none => (w, some (eng.typeError "className"))
    | some _ =>
      let w1 := { w with alert := some ["alert", "alert-success"] }
      match w1.details with
      | none => (w1, some (eng.typeError "innerHTML"))
      | some _ =>
        ({ w1 with
            details := some Details.noOversized
            alert := some (classListRemove ["alert", "alert-success"] "d-none")
            hides := w1.hides ++ [5000] }, none)

/-- `showOversizedError(errorMessage)`. -/
def showOversizedError (eng : Engine) (errorMessage : String) : Effect :=
  fun w =>
    match w.alert with
    | none => (w, some (eng.typeError "className"))
    | some _ =>
      let w1 := { w with alert := some ["alert", "alert-danger"] }
      match w1.details with
      | none => (w1, some (eng.typeError "innerHTML"))
      | some _ =>
        ({ w1 with
            details := some (Details.error errorMessage)
            alert := some (classListRemove ["alert", "alert-danger"] "d-none") }, none)

/-- The label shown while the check runs. -/
def loadingLabel : String :=
  "<span class=\"spinner-border spinner-border-sm me-1\"></span>检查中..."

/-- The synchronous start of `checkOversizedMessages`, up to the first
`await`: the page as it is while the request is pending. -/
def checkBegin (w : World) : World :=
  { w with btn := { innerHTML := loadingLabel, disabled := true } }

/-- `data.count > 0`; an undefined count compares false. -/
def countPositive (count : Option Int) : Bool :=
  match count with
  | some n => decide (0 < n)
  | none => false

/-- The `try` block of `checkOversizedMessages` once the request has settled as
`out`. -/
def checkTry (eng : Engine) (out : FetchOutcome OversizedBody) : Effect :=
  fun w =>
    match out with
    | .rejected message => (w, some message)
    | .badJson _ message => (w, some message)
    | .nullBody _ => (w, some (eng.typeError "count"))
    | .json _ data =>
      if countPositive data.count then showOversizedMessages eng data.oversized_messages w
      else showNoOversizedMessages eng w

/-- `checkOversizedMessages()` from click to completion, for the outcome `out`
of the request: the final page, and the rejection of the returned promise if
the `catch` block itself threw. -/
def checkOversizedMessages (eng : Engine) (out : FetchOutcome OversizedBody) : Effect :=
  fun w =>
    let originalHtml := w.btn.innerHTML
    tryCatchFinally (checkTry eng out) (fun message => showOversizedError eng message)
      (fun w1 => { w1 with btn := { innerHTML := originalHtml, disabled := false } })
      (checkBegin w)

/-- What `cleanupMessages` does to the user: blocking alerts and page reloads,
in order. -/
inductive UiEvent where
  | alert (text : String)
  | reload
  deriving DecidableEq, Repr

/-- The generic failure text of `cleanupMessages`. -/
def genericFailure : String := "清理失败"

/-- The success alert of `cleanupMessages`.  `fromLine` is the text that the
template literal yields for the number passed in (the conversion of a number
to a string is the engine's and is not computed here). -/
def cleanupSuccessText (fromLine : String) : String :=
  "清理成功！已删除第 " ++ fromLine ++ " 行及其之后的消息。\n页面将重新加载以显示清理后的内容。"

/-- The `try` block of `cleanupMessages` once the POST has settled as `out`:
the events produced and the message of the error thrown, if any. -/
def cleanupTry (eng : Engine) (fromLine : String) (out : FetchOutcome CleanupBody) :
    List UiEvent × Option String :=
  match out with
  | .rejected message => ([], some message)
  | .badJson _ message => ([], some message)
  | .nullBody ok => ([], some (eng.typeError (if ok then "success" else "detail")))
  | .json ok result =>
    if ok && result.success == some true then
      ([UiEvent.alert (cleanupSuccessText fromLine), UiEvent.reload], none)
    else
      ([], some (match result.detail with
        | some d => if d ≠ "" then d else genericFailure
        | none => genericFailure))

/-- `cleanupMessages(fromLine)` for the outcome `out` of the POST; `fromLine`
is given as the text its interpolation yields. -/
def cleanupMessages (eng : Engine) (fromLine : String) (out : FetchOutcome CleanupBody) :
    List UiEvent :=
  match cleanupTry eng fromLine out with
  | (events, none) => events
  | (events, some message) => events ++ [UiEvent.alert ("清理失败: " ++ message)]

/-- The last keystroke of a burst that starts with `k`. -/
def lastKey (k : Nat × String) : List (Nat × String) → Nat × String
  | [] => k
  | k1 :: rest => lastKey k1 rest

/-- The listener ran at time `t` and its timeout is the only one pending. -/
def Armed (s : SearchState) (t : Nat) : Prop :=
  s.now = t ∧ ∃ id, s.timers = [(id, t + 500)] ∧ s.debounceTimer = some id

/-- Every pending timeout is the one `debounceTimer` refers to, and there is at
most one. -/
def TimerInv (s : SearchState) : Prop :=
  s.timers = [] ∨ ∃ id due, s.timers = [(id, due)] ∧ s.debounceTimer = some id

/-! ## Predicates used to state the properties -/

/-- The cleanup POST succeeded: the HTTP status is ok and the JSON body has
`success` true. -/
def cleanupSucceeds : FetchOutcome CleanupBody → Bool
  | .json true body => body.success == some true
  | _ => false

/-- The non-empty `detail` of the response body, when it has one. -/
def serverDetail : FetchOutcome CleanupBody → Option String
  | .json _ body =>
    match body.detail with
    | some d => if d ≠ "" then some d else none
    | none => none
  | _ => none

/-- The failure alert as the claim words it: the fixed lead-in, then the detail
of the body when it has a non-empty one and the generic failure message in
every other case. -/
def claimedFailureText (out : FetchOutcome CleanupBody) : String :=
  "清理失败: " ++ (serverDetail out).getD "清理失败"

/-- The value is empty or consists of white space only. -/
def isBlank (value : String) : Bool :=
  value.data.all isTrimChar

/-- The entries a search submission is meant to send: those whose value is
not blank, in form order, with the value trimmed. -/
def keptEntries (formData : Entries) : Entries :=
  (formData.filter fun e => !isBlank e.2).map fun e => (e.1, jsTrim e.2)

/-! ## Lemmas on strings and serialization -/

theorem dropWhile_eq_nil_iff_all (p : Char → Bool) (l : List Char) :
    l.dropWhile p = [] ↔ l.all p = true := by
  induction l with
  | nil => simp
  | cons a t ih =>
    by_cases h : p a = true
    · simp [List.dropWhile, h, ih]
    · simp [List.dropWhile, h]

theorem dropWhile_head_not (p : Char → Bool) (l : List Char) (a : Char) (t : List Char)
    (h : l.dropWhile p = a :: t) : p a = false := by
  induction l with
  | nil => simp at h
  | cons b r ih =>
    by_cases hb : p b = true
    · simp [List.dropWhile, hb] at h
      exact ih h
    · simp [List.dropWhile, hb] at h
      obtain ⟨rfl, -⟩ := h
      simpa using hb

theorem trimChars_eq_nil_iff (l : List Char) :
    trimChars l = [] ↔ l.all isTrimChar = true := by
  unfold trimChars
  rw [List.reverse_eq_nil_iff, dropWhile_eq_nil_iff_all]
  constructor
  · intro h
    cases hd : l.dropWhile isTrimChar with
    | nil => exact (dropWhile_eq_nil_iff_all _ _).1 hd
    | cons a t =>
      have ha := dropWhile_head_not _ _ _ _ hd
      rw [hd] at h
      simp [ha] at h
  · intro h
    rw [(dropWhile_eq_nil_iff_all _ _).2 h]
    simp

theorem jsTrim_eq_empty_iff (v : String) : jsTrim v = "" ↔ isBlank v = true := by
  unfold jsTrim isBlank
  rw [← trimChars_eq_nil_iff]
  constructor
  · intro h
    have := congrArg String.data h
    simpa using this
  · intro h
    rw [h]

theorem handleSearchStep_foldl (formData acc : Entries) :
    formData.foldl handleSearchStep acc = acc ++ keptEntries formData := by
  induction formData generalizing acc with
  | nil => simp [keptEntries]
  | cons e rest ih =>
    rw [List.foldl_cons, ih]
    by_cases h : isBlank e.2 = true
    · have h1 : jsTrim e.2 = "" := (jsTrim_eq_empty_iff _).2 h
      simp [handleSearchStep, keptEntries, h, h1]
    · have h1 : jsTrim e.2 ≠ "" := fun hh => h ((jsTrim_eq_empty_iff _).1 hh)
      simp [handleSearchStep, keptEntries, h, h1]

theorem charOfNat_toNat (m : Nat) : (Char.ofNat m).toNat = m ∨ (Char.ofNat m).toNat = 0 := by
  by_cases h : m.isValidChar
  · left
    simp [Char.ofNat, h, Char.ofNatAux, Char.toNat, Char.val, UInt32.toNat, BitVec.toNat_ofNatLt]
  · right
    simp [Char.ofNat, h, Char.toNat]
    rfl

theorem hexDigit_ne_question (n : Nat) : hexDigit n ≠ '?' := by
  intro h
  have h1 : (hexDigit n).toNat = 63 := by rw [h]; rfl
  unfold hexDigit at h1
  split at h1
  · rcases charOfNat_toNat (48 + n) with h2 | h2 <;> omega
  · rcases charOfNat_toNat (55 + n) with h2 | h2 <;> omega

theorem urlencodedByte_ne_question (b : Nat) : ∀ c ∈ urlencodedByte b, c ≠ '?' := by
  intro c hc
  unfold urlencodedByte at hc
  split at hc
  · simp at hc; subst hc; decide
  · split at hc
    · simp at hc
      subst hc
      intro h
      have h1 : (Char.ofNat b).toNat = 63 := by rw [h]; rfl
      rcases charOfNat_toNat b with h2 | h2 <;> omega
    · simp at hc
      rcases hc with rfl | rfl | rfl
      · decide
      · exact hexDigit_ne_question _
      · exact hexDigit_ne_question _

theorem urlencodedString_ne_question (s : String) : ∀ c ∈ urlencodedString s, c ≠ '?' := by
  intro c hc
  unfold urlencodedString at hc
  simp only [List.mem_flatten, List.mem_map] at hc
  obtain ⟨l, ⟨a, -, rfl⟩, hc⟩ := hc
  simp only [List.mem_flatten, List.mem_map] at hc
  obtain ⟨l2, ⟨b, -, rfl⟩, hc⟩ := hc
  exact urlencodedByte_ne_question b c hc

theorem serialize_cons (e : String × String) (rest : Entries) :
    ∃ c t, c ≠ '?' ∧ (URLSearchParams.toString (e :: rest)).data = c :: t := by
  have hp : ∃ c t, c ≠ '?' ∧ serializePair e = c :: t := by
    unfold serializePair
    cases hu : urlencodedString e.1 with
    | nil => exact ⟨'=', _, by decide, rfl⟩
    | cons c t =>
      refine ⟨c, _, ?_, rfl⟩
      exact urlencodedString_ne_question e.1 c (by rw [hu]; simp)
  obtain ⟨c, t, hc, ht⟩ := hp
  cases rest with
  | nil =>
    refine ⟨c, t, hc, ?_⟩
    simp [URLSearchParams.toString, List.intercalate, ht]
  | cons e2 r =>
    refine ⟨c, t ++ '&' :: List.intercalate ['&'] ((e2 :: r).map serializePair), hc, ?_⟩
    simp [URLSearchParams.toString, List.intercalate, ht]

theorem serialize_ne_empty (e : String × String) (rest : Entries) :
    URLSearchParams.toString (e :: rest) ≠ "" := by
  obtain ⟨c, t, -, h⟩ := serialize_cons e rest
  intro h2
  rw [h2] at h
  simp at h

theorem setSearch_serialize (loc : URL) (l : Entries) :
    loc.setSearch (URLSearchParams.toString l)
      = { loc with query := if l = [] then none else some (URLSearchParams.toString l) } := by
  cases l with
  | nil => simp [URL.setSearch, URLSearchParams.toString, List.intercalate]
  | cons e rest =>
    obtain ⟨c, t, hc, h⟩ := serialize_cons e rest
    have hne := serialize_ne_empty e rest
    unfold URL.setSearch
    rw [if_neg hne, h]
    simp
    split
    · rename_i heq
      simp at heq
      exact absurd heq.1 hc
    · rfl

theorem toggleTheme_isDark (s : ThemeState) : (toggleTheme s).isDark = !s.isDark := by
  unfold toggleTheme ThemeState.isDark classListContains
  by_cases h : "dark-theme" ∈ s.bodyClasses
  · simp [h, classListRemove]
  · simp [h, classListAdd]

theorem toggleTheme_stored (s : ThemeState) :
    (toggleTheme s).storedTheme = some (if (toggleTheme s).isDark then "dark" else "light") := by
  rw [toggleTheme_isDark]
  unfold toggleTheme ThemeState.isDark classListContains
  by_cases h : "dark-theme" ∈ s.bodyClasses
  · simp [h]
  · simp [h]

theorem toggleTheme_iterate (s : ThemeState) (n : Nat) :
    (toggleTheme^[n] s).isDark = (if n % 2 = 0 then s.isDark else !s.isDark) := by
  induction n with
  | zero => simp
  | succ k ih =>
    rw [Function.iterate_succ_apply', toggleTheme_isDark, ih]
    rcases Nat.mod_two_eq_zero_or_one k with h | h
    · have h2 : (k + 1) % 2 = 1 := by omega
      simp [h, h2]
    · have h2 : (k + 1) % 2 = 0 := by omega
      simp [h, h2]

theorem set_filter_other (l : Entries) (name value : String) :
    (URLSearchParams.set l name value).filter (fun e => e.1 ≠ name)
      = l.filter (fun e => e.1 ≠ name) := by
  induction l with
  | nil => simp [URLSearchParams.set]
  | cons e rest ih =>
    unfold URLSearchParams.set
    by_cases h : e.1 = name
    · simp [h, List.filter_filter]
    · simp only [ne_eq, decide_not] at ih
      simp [h, ih]

theorem set_filter_name (l : Entries) (name value : String) :
    (URLSearchParams.set l name value).filter (fun e => e.1 = name) = [(name, value)] := by
  induction l with
  | nil => simp [URLSearchParams.set]
  | cons e rest ih =>
    unfold URLSearchParams.set
    by_cases h : e.1 = name
    · simp [h, List.filter_filter]
    · simp [h, ih]

theorem set_ne_nil (l : Entries) (name value : String) :
    URLSearchParams.set l name value ≠ [] := by
  cases l with
  | nil => simp [URLSearchParams.set]
  | cons e rest =>
    unfold URLSearchParams.set
    split <;> simp

theorem updateFromParams_ne_nil (loc : URL) (l : Entries) (h : l ≠ []) :
    loc.updateFromParams l = { loc with query := some (URLSearchParams.toString l) } := by
  cases l with
  | nil => exact absurd rfl h
  | cons e rest =>
    unfold URL.updateFromParams
    simp [serialize_ne_empty e rest]

/-! ## Lemmas on the debounce timer -/

theorem step_expire_of_no_timer (s : SearchState) (h : s.timers = []) :
    step s SearchEvent.expire = none := by
  simp [step, h, earliest]

theorem onInput_armed_of_no_timer (s : SearchState) (t : Nat) (v : String)
    (h : s.timers = []) : Armed (onInput s t v) t := by
  refine ⟨rfl, s.nextId, ?_, rfl⟩
  cases hd : s.debounceTimer <;> simp [onInput, clearTimeout, h, hd]

theorem onInput_armed_of_armed (s : SearchState) (T t : Nat) (v : String)
    (h : Armed s T) : Armed (onInput s t v) t := by
  obtain ⟨-, id, ht, hd⟩ := h
  refine ⟨rfl, s.nextId, ?_, rfl⟩
  simp [onInput, clearTimeout, ht, hd]

theorem step_input_of_armed (s : SearchState) (T t : Nat) (v : String) (h : Armed s T) :
    step s (SearchEvent.input t v)
      = if T ≤ t ∧ t ≤ T + 500 then some (onInput s t v) else none := by
  obtain ⟨hn, id, ht, -⟩ := h
  simp [step, ht, hn]

theorem step_expire_of_armed (s : SearchState) (T : Nat) (h : Armed s T) :
    step s SearchEvent.expire
      = some { s with
          now := T + 500
          timers := []
          fired := s.fired ++ [T + 500]
          submitted := if shouldAutoSubmit s.value && s.hasForm then s.submitted ++ [T + 500]
                       else s.submitted } := by
  obtain ⟨hn, id, ht, -⟩ := h
  simp [step, ht, hn, earliest, onTimeout]

theorem step_preserves_inv (s s1 : SearchState) (e : SearchEvent) (h : TimerInv s)
    (hs : step s e = some s1) : TimerInv s1 := by
  cases e with
  | input t v =>
    simp only [step] at hs
    split at hs
    · simp only [Option.some.injEq] at hs
      subst hs
      right
      rcases h with h | ⟨id, due, ht, hd⟩
      · refine ⟨s.nextId, t + 500, ?_, rfl⟩
        cases hd : s.debounceTimer <;> simp [onInput, clearTimeout, h, hd]
      · refine ⟨s.nextId, t + 500, ?_, rfl⟩
        simp [onInput, clearTimeout, ht, hd]
    · exact absurd hs (by simp)
  | expire =>
    rcases h with h | ⟨id, due, ht, hd⟩
    · rw [step_expire_of_no_timer s h] at hs
      exact absurd hs (by simp)
    · left
      simp [step, ht, earliest, onTimeout] at hs
      subst hs
      rfl

theorem run_preserves_inv (evs : List SearchEvent) (s s1 : SearchState) (h : TimerInv s)
    (hr : run s evs = some s1) : TimerInv s1 := by
  induction evs generalizing s with
  | nil =>
    simp only [run, Option.some.injEq] at hr
    exact hr ▸ h
  | cons e rest ih =>
    simp only [run] at hr
    cases hs : step s e with
    | none => rw [hs] at hr; exact absurd hr (by simp)
    | some s2 =>
      rw [hs] at hr
      exact ih s2 (step_preserves_inv s s2 e h hs) hr

theorem inv_length_le_one (s : SearchState) (h : TimerInv s) : s.timers.length ≤ 1 := by
  rcases h with h | ⟨id, due, ht, -⟩
  · simp [h]
  · simp [ht]

theorem shouldAutoSubmit_iff (v : String) :
    shouldAutoSubmit v = true ↔ (jsLength v = 0 ∨ 2 < jsLength v) := by
  unfold shouldAutoSubmit
  simp
  tauto

theorem run_burst_of_armed (burst : List (Nat × String)) (s : SearchState) (T : Nat)
    (ha : Armed s T) (hsp : spaced T burst = true) :
    ∃ s1, run s (burstThenExpiry burst) = some s1 ∧ s1.timers = [] ∧
      s1.hasForm = s.hasForm ∧
      s1.fired = s.fired ++ [(lastKey (T, s.value) burst).1 + 500] ∧
      s1.submitted =
        if shouldAutoSubmit (lastKey (T, s.value) burst).2 && s.hasForm then
          s.submitted ++ [(lastKey (T, s.value) burst).1 + 500]
        else s.submitted := by
  induction burst generalizing s T with
  | nil =>
    refine ⟨{ s with
        now := T + 500
        timers := []
        fired := s.fired ++ [T + 500]
        submitted := if shouldAutoSubmit s.value && s.hasForm then s.submitted ++ [T + 500]
                     else s.submitted }, ?_, rfl, rfl, rfl, rfl⟩
    simp only [burstThenExpiry, List.map_nil, List.nil_append, run]
    rw [step_expire_of_armed s T ha]
  | cons k rest ih =>
    simp only [spaced, Bool.and_eq_true, decide_eq_true_eq] at hsp
    obtain ⟨⟨h1, h2⟩, h3⟩ := hsp
    have hstep : step s (SearchEvent.input k.1 k.2) = some (onInput s k.1 k.2) := by
      rw [step_input_of_armed s T k.1 k.2 ha, if_pos ⟨h1, by omega⟩]
    obtain ⟨s1, hr, ht, hf, hfi, hsu⟩ :=
      ih (onInput s k.1 k.2) k.1 (onInput_armed_of_armed s T k.1 k.2 ha) h3
    refine ⟨s1, ?_, ht, hf, ?_, ?_⟩
    · simp only [burstThenExpiry, List.map_cons, List.cons_append, run, hstep]
      exact hr
    · simpa [lastKey, onInput] using hfi
    · simpa [lastKey, onInput] using hsu

theorem schedule_unique_of_armed (evs : List SearchEvent) (s s1 : SearchState) (T : Nat)
    (burst : List (Nat × String)) (ha : Armed s T) (hsp : spaced T burst = true)
    (hk : keystrokes evs = burst) (hr : run s evs = some s1) (ht : s1.timers = []) :
    evs = burstThenExpiry burst := by
  induction evs generalizing s T burst with
  | nil =>
    simp only [run, Option.some.injEq] at hr
    subst hr
    obtain ⟨-, id, h, -⟩ := ha
    rw [h] at ht
    exact absurd ht (by simp)
  | cons e rest ih =>
    cases e with
    | input t v =>
      simp only [keystrokes] at hk
      subst hk
      simp only [spaced, Bool.and_eq_true, decide_eq_true_eq] at hsp
      obtain ⟨⟨h1, h2⟩, h3⟩ := hsp
      simp only [run] at hr
      rw [step_input_of_armed s T t v ha, if_pos ⟨h1, by omega⟩] at hr
      have := ih (onInput s t v) t (keystrokes rest) (onInput_armed_of_armed s T t v ha) h3 rfl hr
      exact congrArg (List.cons (SearchEvent.input t v)) this
    | expire =>
      simp only [keystrokes] at hk
      simp only [run] at hr
      rw [step_expire_of_armed s T ha] at hr
      cases rest with
      | nil =>
        simp only [keystrokes] at hk
        subst hk
        rfl
      | cons e2 rest2 =>
        exfalso
        cases e2 with
        | expire =>
          simp only [run] at hr
          rw [step_expire_of_no_timer _ rfl] at hr
          exact absurd hr (by simp)
        | input t v =>
          simp only [keystrokes] at hk
          subst hk
          simp only [spaced, Bool.and_eq_true, decide_eq_true_eq] at hsp
          obtain ⟨⟨h1, h2⟩, -⟩ := hsp
          simp only [run, step] at hr
          rw [if_neg (by simp; omega)] at hr
          exact absurd hr (by simp)

theorem getLast_eq_lastKey (k : Nat × String) (rest : List (Nat × String))
    (h : k :: rest ≠ []) : (k :: rest).getLast h = lastKey k rest := by
  induction rest generalizing k with
  | nil => rfl
  | cons k1 r ih =>
    rw [List.getLast_cons (by simp)]
    exact ih k1 (by simp)

theorem loadSavedTheme_after_toggle (s : ThemeState) :
    (loadSavedTheme ⟨[], (toggleTheme s).storedTheme⟩).isDark = (toggleTheme s).isDark := by
  rw [toggleTheme_isDark]
  unfold toggleTheme loadSavedTheme ThemeState.isDark classListContains
  by_cases h : "dark-theme" ∈ s.bodyClasses
  · simp [h]
  · simp [h, classListAdd]

theorem jsLength_of_bmp (l : List Char) (h : ∀ c ∈ l, c.toNat < 0x10000) :
    jsLength (String.mk l) = l.length := by
  unfold jsLength
  induction l with
  | nil => rfl
  | cons a t ih =>
    have ha : a.toNat < 0x10000 := h a (by simp)
    have iht := ih (fun c hc => h c (by simp [hc]))
    simp only [List.map_cons, List.sum_cons, List.length_cons] at iht ⊢
    rw [iht, if_pos ha]
    omega

theorem cleanupMessages_json_success (eng : Engine) (fromLine : String) (ok : Bool)
    (body : CleanupBody) (h : cleanupSucceeds (.json ok body) = true) :
    cleanupMessages eng fromLine (.json ok body)
      = [UiEvent.alert (cleanupSuccessText fromLine), UiEvent.reload] := by
  cases ok with
  | false => simp [cleanupSucceeds] at h
  | true =>
    simp only [cleanupSucceeds] at h
    simp [cleanupMessages, cleanupTry, h]

theorem cleanupMessages_json_failure (eng : Engine) (fromLine : String) (ok : Bool)
    (body : CleanupBody) (h : cleanupSucceeds (.json ok body) = false) :
    cleanupMessages eng fromLine (.json ok body)
      = [UiEvent.alert ("清理失败: " ++
          (match body.detail with
           | some d => if d ≠ "" then d else genericFailure
           | none => genericFailure))] := by
  have h3 : (ok && body.success == some true) = false := by
    cases ok with
    | false => rfl
    | true => simpa [cleanupSucceeds] using h
  simp [cleanupMessages, cleanupTry, h3]

/-! ## Theorems for the claims -/

/-- C1. For every list of form entries, the parameters `handleSearch` builds
are exactly the entries whose value is not blank (not empty and not only white
space), in form order, each with its key unchanged and its value trimmed; and
the URL it navigates to is the current URL whose query is the serialization of
exactly these parameters, with no query at all when none is left. -/
theorem handleSearch_keeps_trimmed_nonblank (loc : URL) (formData : Entries) :
    handleSearchParams formData = keptEntries formData ∧
    handleSearch loc formData =
      URL.toString { loc with
        query := if keptEntries formData = [] then none
                 else some (URLSearchParams.toString (keptEntries formData)) } := by
  have h : handleSearchParams formData = keptEntries formData := by
    unfold handleSearchParams
    rw [handleSearchStep_foldl]
    simp
  refine ⟨h, ?_⟩
  unfold handleSearch
  simp only [h, setSearch_serialize]

/-- C1 at a concrete form: a padded value is sent trimmed, a value of white
space only and an empty value are not sent, and the fragment of the current
URL is kept. -/
theorem handleSearch_keeps_trimmed_nonblank_witness :
    handleSearchParams [("q", "  a b "), ("status", " \t"), ("project", "")] = [("q", "a b")] ∧
    handleSearch ⟨"http://localhost:8000/", some "page=2", some "top"⟩
        [("q", "  a b "), ("status", " \t"), ("project", "")]
      = "http://localhost:8000/?q=a+b#top" :=
  ⟨(handleSearch_keeps_trimmed_nonblank ⟨"http://localhost:8000/", some "page=2", some "top"⟩
      [("q", "  a b "), ("status", " \t"), ("project", "")]).1.trans (by decide),
   by decide⟩

/-- C6. For every initial theme state and every n, n applications of
`toggleTheme` leave the dark-theme class as it was when n is even and flip it
when n is odd; and after each toggle of the sequence the value stored under the
key `theme` is `dark` exactly when the dark-theme class is on the body, and
`light` otherwise. -/
theorem toggleTheme_parity_and_persisted (s : ThemeState) (n : Nat) :
    (toggleTheme^[n] s).isDark = (if n % 2 = 0 then s.isDark else !s.isDark) ∧
    (toggleTheme^[n + 1] s).storedTheme
      = some (if (toggleTheme^[n + 1] s).isDark then "dark" else "light") := by
  refine ⟨toggleTheme_iterate s n, ?_⟩
  rw [Function.iterate_succ_apply']
  exact toggleTheme_stored _

/-- C7. For every current URL and every pagination link whose query string
carries page = p, the click navigates to the current URL (same path, same
fragment) whose query is the serialization of a parameter list in which
exactly one parameter is named page, with value p, and in which the other
parameters are those of the current URL with their values and relative order;
the link contributes nothing but p. -/
theorem pagination_sets_page_only (loc : URL) (locParams linkParams : Entries) (p : String)
    (hp : URLSearchParams.get linkParams "page" = some p) :
    paginationClick loc locParams linkParams = loadPage loc locParams (some p) ∧
    ∃ params : Entries,
      paginationClick loc locParams linkParams
        = URL.toString { base := loc.base, query := some (URLSearchParams.toString params),
                         fragment := loc.fragment } ∧
      params.filter (fun e => e.1 = "page") = [("page", p)] ∧
      params.filter (fun e => e.1 ≠ "page") = locParams.filter (fun e => e.1 ≠ "page") := by
  have h1 : paginationClick loc locParams linkParams = loadPage loc locParams (some p) := by
    unfold paginationClick
    rw [hp]
  refine ⟨h1, URLSearchParams.set locParams "page" p, ?_, set_filter_name _ _ _,
    set_filter_other _ _ _⟩
  rw [h1]
  unfold loadPage
  simp only [Option.getD_some]
  rw [updateFromParams_ne_nil _ _ (set_ne_nil _ _ _)]

/-- C7, the scenario of the specification: on `?status=active` a click on the
link for page 3 navigates to a query with both `status=active` and `page=3`. -/
theorem pagination_sets_page_only_witness :
    paginationClick ⟨"http://localhost:8000/projects/demo", some "status=active", none⟩
        [("status", "active")] [("page", "3")]
      = "http://localhost:8000/projects/demo?status=active&page=3" ∧
    ∃ params : Entries,
      paginationClick ⟨"http://localhost:8000/projects/demo", some "status=active", none⟩
          [("status", "active")] [("page", "3")]
        = URL.toString { base := "http://localhost:8000/projects/demo",
                         query := some (URLSearchParams.toString params), fragment := none } ∧
      params.filter (fun e => e.1 = "page") = [("page", "3")] ∧
      params.filter (fun e => e.1 ≠ "page")
        = [("status", "active")].filter (fun e => e.1 ≠ "page") :=
  ⟨by decide,
   (pagination_sets_page_only ⟨"http://localhost:8000/projects/demo", some "status=active", none⟩
      [("status", "active")] [("page", "3")] "3" (by decide)).2⟩

/-- C2, the claim as written fails: for a rejected request (no body, so no
detail) the alert does not show the generic failure message but the message
of the rejection. -/
theorem cleanupMessages_rejected_shows_error_message :
    cleanupMessages ⟨fun p => p⟩ "120" (.rejected "Failed to fetch")
      = [UiEvent.alert "清理失败: Failed to fetch"] ∧
    serverDetail (.rejected "Failed to fetch") = none ∧
    cleanupMessages ⟨fun p => p⟩ "120" (.rejected "Failed to fetch")
      ≠ [UiEvent.alert (claimedFailureText (.rejected "Failed to fetch"))] := by
  decide

/-- C2, amended. For every settled cleanup POST: the page is reloaded if and
only if the HTTP status is ok and the body has `success` true, and then the
events are the success alert followed by one reload.  In every other case
there is no reload and exactly one alert, whose text is the lead-in followed
by: the message of the error when the request was rejected, when the body
could not be parsed, or when the body is null; the detail of the body when it
has a non-empty one; the generic failure message when the parsed body has no
detail or an empty one. -/
theorem cleanupMessages_alert_texts (eng : Engine) (fromLine : String)
    (out : FetchOutcome CleanupBody) :
    (UiEvent.reload ∈ cleanupMessages eng fromLine out ↔ cleanupSucceeds out = true) ∧
    (cleanupSucceeds out = true →
      cleanupMessages eng fromLine out
        = [UiEvent.alert ("清理成功！已删除第 " ++ fromLine
              ++ " 行及其之后的消息。\n页面将重新加载以显示清理后的内容。"),
           UiEvent.reload]) ∧
    (∀ m, out = .rejected m →
      cleanupMessages eng fromLine out = [UiEvent.alert ("清理失败: " ++ m)]) ∧
    (∀ ok m, out = .badJson ok m →
      cleanupMessages eng fromLine out = [UiEvent.alert ("清理失败: " ++ m)]) ∧
    (∀ ok, out = .nullBody ok →
      cleanupMessages eng fromLine out
        = [UiEvent.alert ("清理失败: " ++ eng.typeError (if ok then "success" else "detail"))]) ∧
    (∀ ok body d, out = .json ok body → cleanupSucceeds out = false →
      body.detail = some d → d ≠ "" →
      cleanupMessages eng fromLine out = [UiEvent.alert ("清理失败: " ++ d)]) ∧
    (∀ ok body, out = .json ok body → cleanupSucceeds out = false →
      (body.detail = none ∨ body.detail = some "") →
      cleanupMessages eng fromLine out = [UiEvent.alert "清理失败: 清理失败"]) := by
  refine ⟨?_, ?_, ?_, ?_, ?_, ?_, ?_⟩
  · cases out with
    | json ok body =>
      cases hsuc : cleanupSucceeds (.json ok body)
      · rw [cleanupMessages_json_failure eng fromLine ok body hsuc]
        simp
      · rw [cleanupMessages_json_success eng fromLine ok body hsuc]
        simp
    | rejected message => simp [cleanupMessages, cleanupTry, cleanupSucceeds]
    | badJson ok message => simp [cleanupMessages, cleanupTry, cleanupSucceeds]
    | nullBody ok => simp [cleanupMessages, cleanupTry, cleanupSucceeds]
  · intro h
    cases out with
    | json ok body => exact cleanupMessages_json_success eng fromLine ok body h
    | rejected message => simp [cleanupSucceeds] at h
    | badJson ok message => simp [cleanupSucceeds] at h
    | nullBody ok => simp [cleanupSucceeds] at h
  · intro m h
    subst h
    rfl
  · intro ok m h
    subst h
    rfl
  · intro ok h
    subst h
    rfl
  · intro ok body d hout hfail hd hne
    subst hout
    rw [cleanupMessages_json_failure eng fromLine ok body hfail, hd]
    simp [hne]
  · intro ok body hout hfail hd
    subst hout
    rw [cleanupMessages_json_failure eng fromLine ok body hfail]
    rcases hd with hd | hd <;> rw [hd] <;> decide

/-- C2, amended, at concrete outcomes: HTTP 500 with the body
`detail: "locked"` gives the one alert `清理失败: locked` and no reload; HTTP 200
with `success: false` and no detail gives the generic text; HTTP 200 with
`success: true` gives the success alert and then the reload. -/
theorem cleanupMessages_alert_texts_witness :
    cleanupMessages ⟨fun p => p⟩ "120" (.json false ⟨none, some "locked"⟩)
      = [UiEvent.alert ("清理失败: " ++ "locked")] ∧
    cleanupMessages ⟨fun p => p⟩ "120" (.json false ⟨none, some "locked"⟩)
      = [UiEvent.alert "清理失败: locked"] ∧
    ¬ UiEvent.reload ∈ cleanupMessages ⟨fun p => p⟩ "120" (.json false ⟨none, some "locked"⟩) ∧
    cleanupMessages ⟨fun p => p⟩ "120" (.json true ⟨some false, none⟩)
      = [UiEvent.alert "清理失败: 清理失败"] ∧
    cleanupMessages ⟨fun p => p⟩ "120" (.json true ⟨some true, none⟩)
      = [UiEvent.alert "清理成功！已删除第 120 行及其之后的消息。\n页面将重新加载以显示清理后的内容。",
         UiEvent.reload] :=
  ⟨(cleanupMessages_alert_texts ⟨fun p => p⟩ "120"
      (.json false ⟨none, some "locked"⟩)).2.2.2.2.2.1 false ⟨none, some "locked"⟩ "locked"
      rfl (by decide) rfl (by decide),
   by decide,
   fun h => absurd
     ((cleanupMessages_alert_texts ⟨fun p => p⟩ "120"
        (.json false ⟨none, some "locked"⟩)).1.1 h) (by decide),
   (cleanupMessages_alert_texts ⟨fun p => p⟩ "120"
      (.json true ⟨some false, none⟩)).2.2.2.2.2.2 true ⟨some false, none⟩
      rfl (by decide) (Or.inl rfl),
   by decide⟩

/-- C4. With the check control present, for every outcome of the request and
of the rendering (table, success notice, failure notice, or an exception
thrown while rendering, also inside the catch block): while the request is
pending the control is disabled and shows the loading label, and when the
operation finishes the control is enabled and its label is the one it had
when the operation started. -/
theorem checkOversizedMessages_restores_button (eng : Engine)
    (out : FetchOutcome OversizedBody) (w : World) :
    (checkBegin w).btn.disabled = true ∧
    (checkBegin w).btn.innerHTML = loadingLabel ∧
    (checkOversizedMessages eng out w).1.btn.disabled = false ∧
    (checkOversizedMessages eng out w).1.btn.innerHTML = w.btn.innerHTML := by
  refine ⟨rfl, rfl, ?_, ?_⟩ <;>
  · unfold checkOversizedMessages tryCatchFinally
    rfl

/-- C3, evaluated on the code: an error response (status not ok) whose JSON body
carries no count is not treated as a failure; with the result panel present
the page ends with the success notice `noOversized`, the success styling and
a scheduled auto-hide, and no exception reaches the catch block. -/
theorem check_error_status_gives_success_notice (eng : Engine) (btn : Button)
    (cl : List String) (d : Details) :
    checkOversizedMessages eng (.json false ⟨none, none⟩) ⟨btn, some cl, some d, []⟩
      = (⟨⟨btn.innerHTML, false⟩, some ["alert", "alert-success"],
          some Details.noOversized, [5000]⟩, none) := by
  rfl

/-- C8, evaluated on the code: for a GET form whose action is the current page
and whose fields are an empty `search` and `status = active`, the automatic
submission navigates to a query that still holds the empty field, while
`handleSearch` for the same form state navigates to a query without it. -/
theorem autoSubmit_differs_from_handleSearch :
    autoSubmitFilters
        (some ⟨⟨"http://localhost:8000/", none, none⟩, FormMethod.get,
          [("search", ""), ("status", " active ")]⟩)
      = some "http://localhost:8000/?search=&status=+active+" ∧
    handleSearch ⟨"http://localhost:8000/", none, none⟩ [("search", ""), ("status", " active ")]
      = "http://localhost:8000/?status=active" := by
  decide

/-- C9, evaluated on the code: a `pre` inside `.message-content` with the text
`x=1` is decorated with the copy button as its last child, and a click then
copies `x=1Copy`: the text of the block before decoration followed by the label
of the button. -/
theorem copyCode_includes_button_label :
    setupCodeCopyButtons false (.element "DIV" ["message-content"] [.element "PRE" [] [.text "x=1"]])
      = .element "DIV" ["message-content"] [.element "PRE" [] [.text "x=1", copyButton]] ∧
    copyCode (.element "PRE" [] [.text "x=1", copyButton]) = "x=1Copy" ∧
    (Node.element "PRE" [] [.text "x=1"]).textContent = "x=1" := by
  refine ⟨by rfl, by decide, by decide⟩

/-- C10, evaluated on the code: after two successful copies one second apart,
once both feedback timeouts have fired the background override is cleared but
the label is `Copied!`, not `Copy`; two copies two seconds apart do revert. -/
theorem copyFeedback_stuck_after_quick_copies :
    afterCopies [0, 1000] = ⟨"Copied!", ""⟩ ∧ afterCopies [0, 2000] = ⟨"Copy", ""⟩ := by
  decide

/-- C5, the claim as written fails: on a page without the element
`search-form` a keystroke that leaves the input empty (length 0) is followed
by the scheduled action 500 ms later, and that action submits nothing. -/
theorem debounce_without_form_submits_nothing :
    jsLength "" = 0 ∧
    (run (SearchState.initial "a" false) (burstThenExpiry [(0, "")])).map
        (fun s => (s.fired, s.submitted, s.timers))
      = some ([500], [], []) := by
  decide

/-- C5, amended. The debounced search as a step relation over keystrokes and
timeout expiries, from any state in which no timeout is pending (whatever
fired or was submitted before).  After every event sequence at most one
debounce timeout is pending.  For every burst of at least one keystroke, each
less than 500 ms after the previous one: the burst followed by one expiry
runs, the scheduled action fires exactly once, 500 ms after the last
keystroke, and no timeout is left; that action submits the form if and only if
the page has the search form and the length L of the input satisfies L = 0 or
L > 2; and every event sequence with these keystrokes that ends with no
timeout pending is that burst followed by that single expiry. -/
theorem debounce_burst_fires_once (s0 : SearchState) (burst : List (Nat × String))
    (hidle : s0.timers = []) (hne : burst ≠ []) (hb : isBurst burst = true)
    (hnow : s0.now ≤ (burst.head hne).1) :
    (∀ evs s, run s0 evs = some s → s.timers.length ≤ 1) ∧
    (∃ s, run s0 (burstThenExpiry burst) = some s ∧
      s.timers = [] ∧
      s.fired = s0.fired ++ [(burst.getLast hne).1 + 500] ∧
      s.submitted =
        if (jsLength (burst.getLast hne).2 = 0 ∨ 2 < jsLength (burst.getLast hne).2) ∧
            s0.hasForm = true
        then s0.submitted ++ [(burst.getLast hne).1 + 500] else s0.submitted) ∧
    (∀ evs s, keystrokes evs = burst → run s0 evs = some s → s.timers = [] →
      evs = burstThenExpiry burst) := by
  cases burst with
  | nil => exact absurd rfl hne
  | cons k rest =>
    have hnow1 : s0.now ≤ k.1 := by simpa using hnow
    have hstep : ∀ t v, s0.now ≤ t →
        step s0 (SearchEvent.input t v) = some (onInput s0 t v) := by
      intro t v ht
      simp [step, hidle, ht]
    refine ⟨?_, ?_, ?_⟩
    · intro evs s hr
      exact inv_length_le_one s (run_preserves_inv evs _ s (Or.inl hidle) hr)
    · obtain ⟨s1, hr, ht, -, hfi, hsu⟩ :=
        run_burst_of_armed rest (onInput s0 k.1 k.2) k.1
          (onInput_armed_of_no_timer _ _ _ hidle) hb
      refine ⟨s1, ?_, ht, ?_, ?_⟩
      · simp only [burstThenExpiry, List.map_cons, List.cons_append, run, hstep k.1 k.2 hnow1]
        exact hr
      · rw [getLast_eq_lastKey]
        simpa [onInput] using hfi
      · rw [getLast_eq_lastKey, hsu]
        simp only [onInput, Bool.and_eq_true, shouldAutoSubmit_iff]
    · intro evs s hk hr ht
      cases evs with
      | nil =>
        simp only [keystrokes] at hk
        exact absurd hk (by simp)
      | cons e rest1 =>
        cases e with
        | expire =>
          simp only [run] at hr
          rw [step_expire_of_no_timer _ hidle] at hr
          exact absurd hr (by simp)
        | input t v =>
          simp only [keystrokes, List.cons.injEq] at hk
          obtain ⟨hk1, hk2⟩ := hk
          subst hk1
          subst hk2
          simp only [run, hstep t v hnow1] at hr
          have := schedule_unique_of_armed rest1 _ s t (keystrokes rest1)
            (onInput_armed_of_no_timer _ t v hidle) hb rfl hr ht
          exact congrArg (List.cons (SearchEvent.input t v)) this

/-- C5, amended, at concrete bursts.  Typing `cla` at 0, 120 and 400 ms: one
action at 900 ms, which submits.  After an earlier action that fired at 700 ms
without submitting, the single keystroke `a` at 5000 ms (length 1): one action
at 5500 ms, no submission.  Deleting down to the empty input: submits.  One
character outside the Basic Multilingual Plane has length 2: no submission. -/
theorem debounce_burst_fires_once_witness :
    (∃ s, run (SearchState.initial "" true)
          (burstThenExpiry [(0, "c"), (120, "cl"), (400, "cla")]) = some s ∧
      s.timers = [] ∧ s.fired = [900] ∧ s.submitted = [900]) ∧
    (∃ s, run { now := 700, value := "ab", hasForm := true, timers := [], nextId := 3,
                debounceTimer := some 2, fired := [700], submitted := [] }
          (burstThenExpiry [(5000, "a")]) = some s ∧
      s.timers = [] ∧ s.fired = [700, 5500] ∧ s.submitted = []) ∧
    (∃ s, run (SearchState.initial "abc" true)
          (burstThenExpiry [(10, "ab"), (200, "a"), (350, "")]) = some s ∧
      s.timers = [] ∧ s.fired = [850] ∧ s.submitted = [850]) ∧
    (∃ s, run (SearchState.initial "" true) (burstThenExpiry [(0, "😀")]) = some s ∧
      s.timers = [] ∧ s.fired = [500] ∧ s.submitted = []) := by
  refine ⟨?_, ?_, ?_, ?_⟩
  · obtain ⟨s, h1, h2, h3, h4⟩ :=
      (debounce_burst_fires_once (SearchState.initial "" true)
        [(0, "c"), (120, "cl"), (400, "cla")] rfl (by decide) (by decide) (by decide)).2.1
    exact ⟨s, h1, h2, h3.trans (by decide), h4.trans (by decide)⟩
  · obtain ⟨s, h1, h2, h3, h4⟩ :=
      (debounce_burst_fires_once
        { now := 700, value := "ab", hasForm := true, timers := [], nextId := 3,
          debounceTimer := some 2, fired := [700], submitted := [] }
        [(5000, "a")] rfl (by decide) (by decide) (by decide)).2.1
    exact ⟨s, h1, h2, h3.trans (by decide), h4.trans (by decide)⟩
  · obtain ⟨s, h1, h2, h3, h4⟩ :=
      (debounce_burst_fires_once (SearchState.initial "abc" true)
        [(10, "ab"), (200, "a"), (350, "")] rfl (by decide) (by decide) (by decide)).2.1
    exact ⟨s, h1, h2, h3.trans (by decide), h4.trans (by decide)⟩
  · obtain ⟨s, h1, h2, h3, h4⟩ :=
      (debounce_burst_fires_once (SearchState.initial "" true)
        [(0, "😀")] rfl (by decide) (by decide) (by decide)).2.1
    exact ⟨s, h1, h2, h3.trans (by decide), h4.trans (by decide)⟩

end ClaudeViewer
